import Mathlib

/-!
Verification of the LiquiVerde recommendation core: the sustainability
scorer, the multi-objective knapsack shopping-list optimizer, and the
substitution engine.  Definitions are shallow embeddings of the reference
implementation (pseudocode in `backend/scripts/init_db.sql` doc sections and
the substitution-engine document).  Monetary amounts and scores are modelled
as rationals; machine floating point is not involved in any claim checked
here beyond exact arithmetic.
-/

namespace LiquiVerde

/-- First maximal element of a list under key `f` (Python `max(xs, key=f)`:
the first element attaining the maximum wins ties). -/
def argmaxFirst (f : α → ℚ) : List α → Option α
  | [] => none
  | x :: xs =>
    match argmaxFirst f xs with
    | none => some x
    | some y => if f x < f y then some y else some x

/-- First minimal element of a list under key `f` (Python `min(xs, key=f)`:
the first element attaining the minimum wins ties). -/
def argminFirst (f : α → ℚ) : List α → Option α
  | [] => none
  | x :: xs =>
    match argminFirst f xs with
    | none => some x
    | some y => if f y < f x then some y else some x

/-- Stable insertion step for descending sort by key `f`: `x` is placed
before the first element with a strictly smaller key, hence after all
earlier elements with an equal key (matching Python's stable
`sorted(key=f, reverse=True)`). -/
def insertDesc (f : α → ℚ) (x : α) : List α → List α
  | [] => [x]
  | y :: ys => if f y < f x then x :: y :: ys else y :: insertDesc f x ys

/-- Stable descending sort by key `f`. -/
def sortDesc (f : α → ℚ) : List α → List α
  | [] => []
  | x :: xs => insertDesc f x (sortDesc f xs)

/-- Stable insertion step for ascending sort by key `f`. -/
def insertAsc (f : α → ℚ) (x : α) : List α → List α
  | [] => [x]
  | y :: ys => if f x < f y then x :: y :: ys else y :: insertAsc f x ys

/-- Stable ascending sort by key `f`. -/
def sortAsc (f : α → ℚ) : List α → List α
  | [] => []
  | x :: xs => insertAsc f x (sortAsc f xs)

/-- Catalog product record (data model of spec §3; attributes are the ones
consumed by the scorer, optimizer and substitution engine). -/
structure Product where
  name : String
  brand : String
  category : String
  price : ℚ
  discount : ℚ
  unit_price : ℚ
  store : String
  carbon_footprint : ℚ
  water_usage : ℚ
  packaging_recyclable : Bool
  fair_trade : Bool
  local_product : Bool
  social_certifications : Bool
  nutri_score : String
  no_additives : Bool
  high_fiber : Bool
  high_protein : Bool
  labels : List String
  deriving Repr, DecidableEq

/-- A desired purchase in a shopping list (spec §3 `ShoppingListItem`). -/
structure ShoppingListItem where
  product_name : String
  category : String
  quantity : ℕ
  priority : ℕ
  preferences : List String
  deriving Repr, DecidableEq

/-- A shopping list: items, optional budget ceiling, optimization focus. -/
structure ShoppingList where
  items : List ShoppingListItem
  budget : Option ℚ
  optimize_for : String
  deriving Repr, DecidableEq

/-- Environment parameters of the economic dimension: the category-average
price and the unit-price threshold the reference pseudocode compares
against (`category_average`, `threshold`). -/
structure ScorerCtx where
  category_average : ℚ
  unit_price_threshold : ℚ
  deriving Repr, DecidableEq

/-- NutriScore bonus table of `calculate_health_score`
(`{'A': 20, 'B': 15, 'C': 10, 'D': 5, 'E': 0}`, default 0). -/
def nutriBonus (g : String) : ℚ :=
  if g = "A" then 20 else if g = "B" then 15 else if g = "C" then 10
  else if g = "D" then 5 else 0

/-- Economic dimension: base 50, +20 if price beats the category average,
+min(discount*2, 20) for an active discount, +10 for a good unit price;
capped at 100. -/
def calculate_economic_score (ctx : ScorerCtx) (p : Product) : ℚ :=
  min (50 + (if p.price < ctx.category_average then 20 else 0)
    + (if 0 < p.discount then min (p.discount * 2) 20 else 0)
    + (if p.unit_price < ctx.unit_price_threshold then 10 else 0)) 100

/-- Environmental dimension: base 50, +15/+10 for a low carbon footprint,
+15 local, +10 recyclable packaging, +10 organic label; capped at 100. -/
def calculate_environmental_score (p : Product) : ℚ :=
  min (50
    + (if p.carbon_footprint < 1 then 15 else if p.carbon_footprint < 2 then 10 else 0)
    + (if p.local_product then 15 else 0)
    + (if p.packaging_recyclable then 10 else 0)
    + (if "organic" ∈ p.labels then 10 else 0)) 100

/-- Social dimension: base 50, +20 fair trade, +15 local, +15 social
certifications; capped at 100. -/
def calculate_social_score (p : Product) : ℚ :=
  min (50 + (if p.fair_trade then 20 else 0)
    + (if p.local_product then 15 else 0)
    + (if p.social_certifications then 15 else 0)) 100

/-- Health dimension: base 50, NutriScore bonus, +10 organic, +10 no
additives, +10 high fiber or protein; capped at 100. -/
def calculate_health_score (p : Product) : ℚ :=
  min (50 + nutriBonus p.nutri_score
    + (if "organic" ∈ p.labels then 10 else 0)
    + (if p.no_additives then 10 else 0)
    + (if p.high_fiber ∨ p.high_protein then 10 else 0)) 100

/-- The four sub-scores plus the weighted aggregate (spec §3
`SustainabilityScore`). -/
structure SustainabilityScore where
  economic_score : ℚ
  environmental_score : ℚ
  social_score : ℚ
  health_score : ℚ
  overall_score : ℚ
  deriving Repr, DecidableEq

/-- Scorer entry point `SustainabilityScorer.calculate_score`: the four dimension scores and
the canonical weighted aggregate
`0.25*economic + 0.30*environmental + 0.20*social + 0.25*health`
(the scorer document's general formula). -/
def calculate_score (ctx : ScorerCtx) (p : Product) : SustainabilityScore :=
  let e := calculate_economic_score ctx p
  let v := calculate_environmental_score p
  let s := calculate_social_score p
  let h := calculate_health_score p
  { economic_score := e
    environmental_score := v
    social_score := s
    health_score := h
    overall_score := (25/100 : ℚ) * e + (30/100 : ℚ) * v + (20/100 : ℚ) * s + (25/100 : ℚ) * h }

/-- ASCII lowercasing of one character (case-insensitive comparisons of
product names). -/
def lowChar (c : Char) : Char :=
  if 65 ≤ c.toNat ∧ c.toNat ≤ 90 then Char.ofNat (c.toNat + 32) else c

/-- ASCII lowercasing of a character list. -/
def lowerChars (l : List Char) : List Char := l.map lowChar

/-- Modelled from the spec: the substitution document invokes an
unspecified string-similarity ratio `fuzzy_ratio` (0-100); modelled here as
the fraction of aligned equal characters of the lowercased names. -/
def fuzzy_ratio (a b : String) : ℚ :=
  let la := lowerChars a.toList
  let lb := lowerChars b.toList
  let n := la.length + lb.length
  if n = 0 then 100
  else (200 * ((la.zip lb).countP (fun c => c.1 == c.2)) : ℚ) / n

/-- Similarity score `calculate_similarity`: +40 same category, +0.2*fuzzy name ratio,
tiered price-ratio bonus (+20 above 0.7, +10 above 0.5), +10 same brand,
+5 per distinct shared label; capped at 100. -/
def calculate_similarity (a b : Product) : ℚ :=
  let s1 : ℚ := (if a.category = b.category then 40 else 0)
  let s2 : ℚ := s1 + fuzzy_ratio a.name b.name * (2/10)
  let pr : ℚ := min a.price b.price / max a.price b.price
  let s3 : ℚ := s2 + (if (7/10 : ℚ) < pr then 20 else if (5/10 : ℚ) < pr then 10 else 0)
  let s4 : ℚ := s3 + (if a.brand = b.brand then 10 else 0)
  let s5 : ℚ := s4 + ((a.labels.dedup.filter (fun l => decide (l ∈ b.labels))).length : ℚ) * 5
  min s5 100

/-- Hard filters `apply_mandatory_filters`: the three hard dietary restrictions; a
candidate lacking the label of a supplied restriction is dropped. -/
def apply_mandatory_filters (candidates : List Product) (preferences : List String) : List Product :=
  let f1 := if "gluten_free" ∈ preferences
    then candidates.filter (fun p => decide ("gluten_free" ∈ p.labels)) else candidates
  let f2 := if "vegan" ∈ preferences
    then f1.filter (fun p => decide ("vegan" ∈ p.labels)) else f1
  let f3 := if "lactose_free" ∈ preferences
    then f2.filter (fun p => decide ("lactose_free" ∈ p.labels)) else f2
  f3

/-- Soft-preference score of `apply_soft_preferences`: +10 for a requested
`organic` label, +10 for a requested `local` product. -/
def preference_score (preferences : List String) (product : Product) : ℚ :=
  (if "organic" ∈ preferences ∧ "organic" ∈ product.labels then 10 else 0) +
  (if "local" ∈ preferences ∧ product.local_product then 10 else 0)

/-- Soft pass `apply_soft_preferences`: re-rank (stably, descending by soft score)
without excluding anybody. -/
def apply_soft_preferences (candidates : List Product) (preferences : List String) : List Product :=
  sortDesc (preference_score preferences) candidates

/-- Maximum number of substitutes returned. -/
def MAX_SUBSTITUTES : ℕ := 5

/-- Minimum similarity for a candidate to count as a substitute. -/
def MIN_SIMILARITY_THRESHOLD : ℚ := 40

/-- A ranked alternative: the product together with its similarity score,
as in the reference examples. -/
structure SubstitutionSuggestion where
  product : Product
  similarity : ℚ
  deriving Repr, DecidableEq

/-- Engine entry point `SubstitutionEngine.find_substitutes`: apply the mandatory dietary
filters, score survivors by `calculate_similarity`, drop candidates below
`MIN_SIMILARITY_THRESHOLD`, sort descending by similarity (stable) and
return the first `MAX_SUBSTITUTES`.  The `focus` argument of the spec
contract does not enter the reference pipeline. -/
def find_substitutes (original : Product) (pool : List Product)
    (_focus : String) (preferences : List String) : List SubstitutionSuggestion :=
  let filtered := apply_mandatory_filters pool preferences
  let scored := filtered.map (fun p => SubstitutionSuggestion.mk p (calculate_similarity original p))
  let kept := scored.filter (fun s => decide (MIN_SIMILARITY_THRESHOLD ≤ s.similarity))
  let ranked := sortDesc (fun s => s.similarity) kept
  ranked.take MAX_SUBSTITUTES

/-- Whether `pat` occurs at the head of the character list. -/
def leadChars : List Char → List Char → Bool
  | [], _ => true
  | _ :: _, [] => false
  | c :: cs, d :: ds => c == d && leadChars cs ds

/-- Whether `pat` occurs as a contiguous run somewhere in the character list. -/
def containsChars (pat : List Char) : List Char → Bool
  | [] => leadChars pat []
  | d :: ds => leadChars pat (d :: ds) || containsChars pat ds

/-- Case-insensitive substring test on product names. -/
def nameContains (needle hay : String) : Bool :=
  containsChars (lowerChars needle.toList) (lowerChars hay.toList)

/-- First whitespace-separated token of a search name. -/
def firstTokenStr (s : String) : String :=
  ((s.splitOn " ").headD s)

/-- Modelled from the spec: phase-1 candidate matching
(`_find_candidate_products` appears in the reference only as a commented
signature; §4.2 gives the precedence: case-insensitive substring match on
the name, then first-token match, then all products of the item's
category). -/
def find_candidate_products (item : ShoppingListItem) (catalog : List Product) : List Product :=
  if catalog.filter (fun p => nameContains item.product_name p.name) ≠ [] then
    catalog.filter (fun p => nameContains item.product_name p.name)
  else if catalog.filter (fun p => nameContains (firstTokenStr item.product_name) p.name) ≠ [] then
    catalog.filter (fun p => nameContains (firstTokenStr item.product_name) p.name)
  else
    catalog.filter (fun p => p.category == item.category)

/-- Modelled from the spec: the balanced blend's price-normalized score
(0-100, cheaper is better) has no formula in the reference material;
modelled as linear min-max normalization over the item's candidate list. -/
def price_score (candidates : List Product) (p : Product) : ℚ :=
  let lo := ((argminFirst (fun q => q.price) candidates).map Product.price).getD p.price
  let hi := ((argmaxFirst (fun q => q.price) candidates).map Product.price).getD p.price
  if lo < hi then 100 * (hi - p.price) / (hi - lo) else 100

/-- Preference-match count of the balanced blend: how many of the item's
soft preference tags appear among the candidate's labels or sustainability
flags (a `local` tag is also satisfied by the `local_product` flag). -/
def preference_match (item : ShoppingListItem) (p : Product) : ℚ :=
  ((item.preferences.filter
    (fun t => decide (t ∈ p.labels) || (t == "local" && p.local_product))).length : ℚ)

/-- Balanced blend of `_select_best_product`:
`0.3*price_score + 0.3*sustainability + 0.2*health + 0.2*preference_match`. -/
def balanced_score (ctx : ScorerCtx) (item : ShoppingListItem)
    (candidates : List Product) (p : Product) : ℚ :=
  (3/10 : ℚ) * price_score candidates p
    + (3/10 : ℚ) * (calculate_score ctx p).overall_score
    + (2/10 : ℚ) * (calculate_score ctx p).health_score
    + (2/10 : ℚ) * preference_match item p

/-- Phase-2 `_select_best_product`: minimum price for `price`, maximum
overall score for `sustainability`, maximum health score for `health`, and
the balanced blend for everything else (the reference pseudocode handles
`balanced` in its final `else` branch, so any other string lands there
too). -/
def select_best_product (ctx : ScorerCtx) (item : ShoppingListItem)
    (candidates : List Product) (optimize_for : String) : Option Product :=
  if optimize_for = "price" then
    argminFirst (fun p => p.price) candidates
  else if optimize_for = "sustainability" then
    argmaxFirst (fun p => (calculate_score ctx p).overall_score) candidates
  else if optimize_for = "health" then
    argmaxFirst (fun p => (calculate_score ctx p).health_score) candidates
  else
    argmaxFirst (balanced_score ctx item candidates) candidates

/-- Per-item result of phase 2: the originating item, the candidate list
considered, and the currently chosen variant. -/
structure Selection where
  item : ShoppingListItem
  candidates : List Product
  chosen : Product
  deriving Repr, DecidableEq

/-- Cheapest candidate of a selection (first minimum, as Python `min`). -/
def Selection.cheapest (s : Selection) : Product :=
  (argminFirst (fun p => p.price) s.candidates).getD s.chosen

/-- Cost of the selection with its current choice: price x quantity. -/
def origCost (s : Selection) : ℚ := (s.item.quantity : ℚ) * s.chosen.price

/-- Cost of the selection if degraded to its cheapest candidate. -/
def cheapCost (s : Selection) : ℚ := (s.item.quantity : ℚ) * s.cheapest.price

/-- Additional cost of the focus-driven choice over the cheapest. -/
def extraCost (s : Selection) : ℚ := origCost s - cheapCost s

/-- The selection degraded to its cheapest candidate. -/
def cheapened (s : Selection) : Selection := { s with chosen := s.cheapest }

/-- Efficiency of step 3c: `(6 - priority) / (price * quantity)` at the
cheapest-candidate cost. -/
def efficiency (s : Selection) : ℚ := ((6 : ℚ) - (s.item.priority : ℚ)) / cheapCost s

/-- Total cost of a list of selections at their current choices. -/
def totalCost (sels : List Selection) : ℚ := (sels.map origCost).sum

/-- Total cost of a list of selections at their cheapest choices. -/
def totalCheap (sels : List Selection) : ℚ := (sels.map cheapCost).sum

/-- Modelled from the spec: `upgrade_if_possible` (invoked but not defined
in the reference pseudocode) walks the selections in ascending order of
additional cost and restores the phase-2 (focus-driven) choice whenever
the running total stays within budget; `t` is the current total cost of
the whole fitted list.  The caller passes the list sorted ascending by
`extraCost`; the output keeps that processing order, which no aggregate of
the result depends on. -/
def upgradeLoop (b : ℚ) : ℚ → List Selection → List Selection
  | _, [] => []
  | t, s :: rest =>
    if t + extraCost s ≤ b then
      s :: upgradeLoop b (t + extraCost s) rest
    else
      cheapened s :: upgradeLoop b t rest

/-- Step 3c greedy inclusion: walk the selections sorted descending by
efficiency, include an item whenever its cheapest cost still fits the
running total, and record the rest as excluded (the reference loop keeps
scanning after an item fails to fit). -/
def greedyInclude (b : ℚ) : ℚ → List Selection → List Selection × List Selection
  | _, [] => ([], [])
  | acc, s :: rest =>
    if acc + cheapCost s ≤ b then
      (s :: (greedyInclude b (acc + cheapCost s) rest).1,
        (greedyInclude b (acc + cheapCost s) rest).2)
    else
      ((greedyInclude b acc rest).1, s :: (greedyInclude b acc rest).2)

/-- Budget fitting `_fit_to_budget`: keep the phase-2 selections if they fit; otherwise
fall back to cheapest variants and upgrade one at a time in ascending
order of additional cost; otherwise greedily include items by descending
efficiency and upgrade the included subset.  An absent budget is
unconstrained.  Returns the fitted selections and the excluded ones. -/
def fit_to_budget (sels : List Selection) (budget : Option ℚ) :
    List Selection × List Selection :=
  match budget with
  | none => (sels, [])
  | some b =>
    if totalCost sels ≤ b then (sels, [])
    else if totalCheap sels ≤ b then
      (upgradeLoop b (totalCheap sels) (sortAsc extraCost sels), [])
    else
      (upgradeLoop b (totalCheap (greedyInclude b 0 (sortDesc efficiency sels)).1)
        (sortAsc extraCost (greedyInclude b 0 (sortDesc efficiency sels)).1),
        (greedyInclude b 0 (sortDesc efficiency sels)).2)

/-- Phases 1-2: match candidates for every item and pick the best variant
for the list's focus; items with no candidates at all are dropped
(recorded as unmatched). -/
def phase2Selections (ctx : ScorerCtx) (sl : ShoppingList) (catalog : List Product) :
    List Selection :=
  sl.items.filterMap (fun item =>
    (select_best_product ctx item (find_candidate_products item catalog) sl.optimize_for).map
      (fun chosen => Selection.mk item (find_candidate_products item catalog) chosen))

/-- Aggregate result of one optimization call (spec §3 / §6). -/
structure OptimizationResult where
  total_cost : ℚ
  estimated_savings : ℚ
  budget_used_percentage : ℚ
  overall_sustainability : SustainabilityScore
  total_carbon_footprint : ℚ
  total_water_usage : ℚ
  recyclable_percentage : ℚ
  optimized_items : List Selection
  excluded_items : List Selection
  recommended_stores : List String
  deriving Repr, DecidableEq

/-- Price of the most expensive candidate considered for a selection. -/
def maxCandidatePrice (s : Selection) : ℚ :=
  ((argmaxFirst (fun p => p.price) s.candidates).map Product.price).getD s.chosen.price

/-- Average of the scorer's outputs across the final selections
(spec §4.2 phase 4). -/
def averageScore (ctx : ScorerCtx) (sels : List Selection) : SustainabilityScore :=
  let n : ℚ := (sels.length : ℚ)
  let scores := sels.map (fun s => calculate_score ctx s.chosen)
  { economic_score := (scores.map (fun sc => sc.economic_score)).sum / n
    environmental_score := (scores.map (fun sc => sc.environmental_score)).sum / n
    social_score := (scores.map (fun sc => sc.social_score)).sum / n
    health_score := (scores.map (fun sc => sc.health_score)).sum / n
    overall_score := (scores.map (fun sc => sc.overall_score)).sum / n }

/-- Optimizer entry point `optimize`: the four phases — match, select, fit to budget, build the
result metrics (costs, savings against the most expensive candidate,
averaged sustainability, footprint sums, recyclable share, distinct
stores). -/
def optimize (ctx : ScorerCtx) (sl : ShoppingList) (catalog : List Product) :
    OptimizationResult :=
  let sels := phase2Selections ctx sl catalog
  let fitted := fit_to_budget sels sl.budget
  let kept := fitted.1
  let cost := totalCost kept
  { total_cost := cost
    estimated_savings :=
      (kept.map (fun s => maxCandidatePrice s - s.chosen.price)).sum
    budget_used_percentage :=
      match sl.budget with
      | some b => 100 * cost / b
      | none => 0
    overall_sustainability := averageScore ctx kept
    total_carbon_footprint := (kept.map (fun s => s.chosen.carbon_footprint)).sum
    total_water_usage := (kept.map (fun s => s.chosen.water_usage)).sum
    recyclable_percentage :=
      if kept.length = 0 then 0
      else 100 * (((kept.filter (fun s => s.chosen.packaging_recyclable)).length : ℚ))
        / (kept.length : ℚ)
    optimized_items := kept
    excluded_items := fitted.2
    recommended_stores := (kept.map (fun s => s.chosen.store)).dedup }

/-! ## Scorer bounds -/

theorem economic_score_bounds (ctx : ScorerCtx) (p : Product) :
    50 ≤ calculate_economic_score ctx p ∧ calculate_economic_score ctx p ≤ 100 := by
  unfold calculate_economic_score
  refine ⟨le_min ?_ (by norm_num), min_le_right _ _⟩
  have h2 : (0:ℚ) ≤ (if 0 < p.discount then min (p.discount * 2) 20 else 0) := by
    by_cases h : 0 < p.discount
    · simp only [h, if_true]
      exact le_min (by linarith) (by norm_num)
    · simp [h]
  have h1 : (0:ℚ) ≤ (if p.price < ctx.category_average then (20:ℚ) else 0) := by
    split_ifs <;> norm_num
  have h3 : (0:ℚ) ≤ (if p.unit_price < ctx.unit_price_threshold then (10:ℚ) else 0) := by
    split_ifs <;> norm_num
  linarith

theorem environmental_score_bounds (p : Product) :
    50 ≤ calculate_environmental_score p ∧ calculate_environmental_score p ≤ 100 := by
  unfold calculate_environmental_score
  refine ⟨le_min ?_ (by norm_num), min_le_right _ _⟩
  split_ifs <;> norm_num

theorem social_score_bounds (p : Product) :
    50 ≤ calculate_social_score p ∧ calculate_social_score p ≤ 100 := by
  unfold calculate_social_score
  refine ⟨le_min ?_ (by norm_num), min_le_right _ _⟩
  split_ifs <;> norm_num

theorem nutriBonus_bounds (g : String) : 0 ≤ nutriBonus g ∧ nutriBonus g ≤ 20 := by
  unfold nutriBonus
  split_ifs <;> norm_num

theorem health_score_bounds (p : Product) :
    50 ≤ calculate_health_score p ∧ calculate_health_score p ≤ 100 := by
  obtain ⟨hb, _⟩ := nutriBonus_bounds p.nutri_score
  unfold calculate_health_score
  refine ⟨le_min ?_ (by norm_num), min_le_right _ _⟩
  split_ifs <;> linarith

theorem calculate_score_economic (ctx : ScorerCtx) (p : Product) :
    (calculate_score ctx p).economic_score = calculate_economic_score ctx p := rfl

theorem calculate_score_environmental (ctx : ScorerCtx) (p : Product) :
    (calculate_score ctx p).environmental_score = calculate_environmental_score p := rfl

theorem calculate_score_social (ctx : ScorerCtx) (p : Product) :
    (calculate_score ctx p).social_score = calculate_social_score p := rfl

theorem calculate_score_health (ctx : ScorerCtx) (p : Product) :
    (calculate_score ctx p).health_score = calculate_health_score p := rfl

theorem calculate_score_overall (ctx : ScorerCtx) (p : Product) :
    (calculate_score ctx p).overall_score =
      (25/100 : ℚ) * calculate_economic_score ctx p
      + (30/100 : ℚ) * calculate_environmental_score p
      + (20/100 : ℚ) * calculate_social_score p
      + (25/100 : ℚ) * calculate_health_score p := rfl

/-- C2: for every product (and scorer environment), each of the four
sub-scores and the overall score produced by the sustainability scorer lie
in the interval [0, 100]. -/
theorem C2_scores_in_unit_range (ctx : ScorerCtx) (p : Product) :
    (0 ≤ (calculate_score ctx p).economic_score ∧ (calculate_score ctx p).economic_score ≤ 100)
    ∧ (0 ≤ (calculate_score ctx p).environmental_score
        ∧ (calculate_score ctx p).environmental_score ≤ 100)
    ∧ (0 ≤ (calculate_score ctx p).social_score ∧ (calculate_score ctx p).social_score ≤ 100)
    ∧ (0 ≤ (calculate_score ctx p).health_score ∧ (calculate_score ctx p).health_score ≤ 100)
    ∧ (0 ≤ (calculate_score ctx p).overall_score
        ∧ (calculate_score ctx p).overall_score ≤ 100) := by
  obtain ⟨e1, e2⟩ := economic_score_bounds ctx p
  obtain ⟨v1, v2⟩ := environmental_score_bounds p
  obtain ⟨s1, s2⟩ := social_score_bounds p
  obtain ⟨h1, h2⟩ := health_score_bounds p
  rw [calculate_score_economic, calculate_score_environmental, calculate_score_social,
    calculate_score_health, calculate_score_overall]
  exact ⟨⟨by linarith, e2⟩, ⟨by linarith, v2⟩, ⟨by linarith, s2⟩, ⟨by linarith, h2⟩,
    by constructor <;> linarith⟩

/-- C3: the overall score equals the canonical fixed weighted combination
of the four sub-scores chosen by the reference implementation,
`0.25*economic + 0.30*environmental + 0.20*social + 0.25*health`
(exact rational arithmetic, so no epsilon is needed). -/
theorem C3_overall_is_weighted_sum (ctx : ScorerCtx) (p : Product) :
    (calculate_score ctx p).overall_score =
      (25/100 : ℚ) * (calculate_score ctx p).economic_score
      + (30/100 : ℚ) * (calculate_score ctx p).environmental_score
      + (20/100 : ℚ) * (calculate_score ctx p).social_score
      + (25/100 : ℚ) * (calculate_score ctx p).health_score := rfl

/-- C9: every sub-score starts from the neutral baseline 50 and only gains
non-negative capped bonuses, so all four sub-scores and the overall score
lie in [50, 100] — strictly tighter than the spec's [0, 100]. -/
theorem C9_scores_at_least_baseline (ctx : ScorerCtx) (p : Product) :
    (50 ≤ (calculate_score ctx p).economic_score ∧ (calculate_score ctx p).economic_score ≤ 100)
    ∧ (50 ≤ (calculate_score ctx p).environmental_score
        ∧ (calculate_score ctx p).environmental_score ≤ 100)
    ∧ (50 ≤ (calculate_score ctx p).social_score ∧ (calculate_score ctx p).social_score ≤ 100)
    ∧ (50 ≤ (calculate_score ctx p).health_score ∧ (calculate_score ctx p).health_score ≤ 100)
    ∧ (50 ≤ (calculate_score ctx p).overall_score
        ∧ (calculate_score ctx p).overall_score ≤ 100) := by
  obtain ⟨e1, e2⟩ := economic_score_bounds ctx p
  obtain ⟨v1, v2⟩ := environmental_score_bounds p
  obtain ⟨s1, s2⟩ := social_score_bounds p
  obtain ⟨h1, h2⟩ := health_score_bounds p
  rw [calculate_score_economic, calculate_score_environmental, calculate_score_social,
    calculate_score_health, calculate_score_overall]
  exact ⟨⟨e1, e2⟩, ⟨v1, v2⟩, ⟨s1, s2⟩, ⟨h1, h2⟩, by constructor <;> linarith⟩

/-! ## List helper lemmas -/

theorem insertDesc_perm (f : α → ℚ) (x : α) (l : List α) :
    List.Perm (insertDesc f x l) (x :: l) := by
  induction l with
  | nil => exact List.Perm.refl _
  | cons y ys ih =>
    unfold insertDesc
    split_ifs
    · exact List.Perm.refl _
    · exact (ih.cons y).trans (List.Perm.swap x y ys)

theorem sortDesc_perm (f : α → ℚ) (l : List α) : List.Perm (sortDesc f l) l := by
  induction l with
  | nil => exact List.Perm.refl _
  | cons x xs ih => exact (insertDesc_perm f x (sortDesc f xs)).trans (ih.cons x)

theorem insertAsc_perm (f : α → ℚ) (x : α) (l : List α) :
    List.Perm (insertAsc f x l) (x :: l) := by
  induction l with
  | nil => exact List.Perm.refl _
  | cons y ys ih =>
    unfold insertAsc
    split_ifs
    · exact List.Perm.refl _
    · exact (ih.cons y).trans (List.Perm.swap x y ys)

theorem sortAsc_perm (f : α → ℚ) (l : List α) : List.Perm (sortAsc f l) l := by
  induction l with
  | nil => exact List.Perm.refl _
  | cons x xs ih => exact (insertAsc_perm f x (sortAsc f xs)).trans (ih.cons x)

theorem mem_sortDesc {f : α → ℚ} {l : List α} {a : α} :
    a ∈ sortDesc f l ↔ a ∈ l := (sortDesc_perm f l).mem_iff

theorem mem_sortAsc {f : α → ℚ} {l : List α} {a : α} :
    a ∈ sortAsc f l ↔ a ∈ l := (sortAsc_perm f l).mem_iff

theorem argmaxFirst_cons (f : α → ℚ) (x : α) (xs : List α) :
    argmaxFirst f (x :: xs) =
      match argmaxFirst f xs with
      | none => some x
      | some y => if f x < f y then some y else some x := rfl

theorem argminFirst_cons (f : α → ℚ) (x : α) (xs : List α) :
    argminFirst f (x :: xs) =
      match argminFirst f xs with
      | none => some x
      | some y => if f y < f x then some y else some x := rfl

theorem argmaxFirst_mem {f : α → ℚ} : ∀ {l : List α} {c : α},
    argmaxFirst f l = some c → c ∈ l := by
  intro l
  induction l with
  | nil => intro c h; simp [argmaxFirst] at h
  | cons x xs ih =>
    intro c h
    rw [argmaxFirst_cons] at h
    cases hxs : argmaxFirst f xs with
    | none =>
      rw [hxs] at h
      simp only [Option.some.injEq] at h
      simp [← h]
    | some y =>
      rw [hxs] at h
      simp only at h
      split_ifs at h <;> simp only [Option.some.injEq] at h
      · exact List.mem_cons_of_mem x (h ▸ ih hxs)
      · simp [← h]

theorem argminFirst_mem {f : α → ℚ} : ∀ {l : List α} {c : α},
    argminFirst f l = some c → c ∈ l := by
  intro l
  induction l with
  | nil => intro c h; simp [argminFirst] at h
  | cons x xs ih =>
    intro c h
    rw [argminFirst_cons] at h
    cases hxs : argminFirst f xs with
    | none =>
      rw [hxs] at h
      simp only [Option.some.injEq] at h
      simp [← h]
    | some y =>
      rw [hxs] at h
      simp only at h
      split_ifs at h <;> simp only [Option.some.injEq] at h
      · exact List.mem_cons_of_mem x (h ▸ ih hxs)
      · simp [← h]

/-- Lemma: `argmaxFirst` returns the first element attaining the maximum of `f`:
everything is bounded by it and everything strictly before it is strictly
below it. -/
theorem argmaxFirst_first_max (f : α → ℚ) :
    ∀ (l : List α), l ≠ [] →
      ∃ c l₁ l₂, argmaxFirst f l = some c ∧ l = l₁ ++ c :: l₂ ∧
        (∀ d ∈ l, f d ≤ f c) ∧ (∀ d ∈ l₁, f d < f c) := by
  intro l
  induction l with
  | nil => intro h; cases h rfl
  | cons x xs ih =>
    intro _
    by_cases hxs : xs = []
    · subst hxs
      exact ⟨x, [], [], rfl, rfl, by simp, by simp⟩
    · obtain ⟨c, l₁, l₂, hc, hdec, hle, hstrict⟩ := ih hxs
      by_cases hx : f x < f c
      · refine ⟨c, x :: l₁, l₂, ?_, ?_, ?_, ?_⟩
        · rw [argmaxFirst_cons, hc]
          simp [hx]
        · simp [hdec]
        · intro d hd
          rcases List.mem_cons.mp hd with h | h
          · exact h ▸ le_of_lt hx
          · exact hle d h
        · intro d hd
          rcases List.mem_cons.mp hd with h | h
          · exact h ▸ hx
          · exact hstrict d h
      · refine ⟨x, [], xs, ?_, rfl, ?_, by simp⟩
        · rw [argmaxFirst_cons, hc]
          simp [hx]
        · intro d hd
          rcases List.mem_cons.mp hd with h | h
          · exact h ▸ le_rfl
          · exact le_trans (hle d h) (not_lt.mp hx)

/-- Lemma: `argminFirst` returns the first element attaining the minimum of `f`. -/
theorem argminFirst_first_min (f : α → ℚ) :
    ∀ (l : List α), l ≠ [] →
      ∃ c l₁ l₂, argminFirst f l = some c ∧ l = l₁ ++ c :: l₂ ∧
        (∀ d ∈ l, f c ≤ f d) ∧ (∀ d ∈ l₁, f c < f d) := by
  intro l
  induction l with
  | nil => intro h; cases h rfl
  | cons x xs ih =>
    intro _
    by_cases hxs : xs = []
    · subst hxs
      exact ⟨x, [], [], rfl, rfl, by simp, by simp⟩
    · obtain ⟨c, l₁, l₂, hc, hdec, hle, hstrict⟩ := ih hxs
      by_cases hx : f c < f x
      · refine ⟨c, x :: l₁, l₂, ?_, ?_, ?_, ?_⟩
        · rw [argminFirst_cons, hc]
          simp [hx]
        · simp [hdec]
        · intro d hd
          rcases List.mem_cons.mp hd with h | h
          · exact h ▸ le_of_lt hx
          · exact hle d h
        · intro d hd
          rcases List.mem_cons.mp hd with h | h
          · exact h ▸ hx
          · exact hstrict d h
      · refine ⟨x, [], xs, ?_, rfl, ?_, by simp⟩
        · rw [argminFirst_cons, hc]
          simp [hx]
        · intro d hd
          rcases List.mem_cons.mp hd with h | h
          · exact h ▸ le_rfl
          · exact le_trans (not_lt.mp hx) (hle d h)

theorem argmaxFirst_none {f : α → ℚ} : ∀ {l : List α}, argmaxFirst f l = none → l = [] := by
  intro l
  cases l with
  | nil => intro _; rfl
  | cons x xs =>
    intro h
    rw [argmaxFirst_cons] at h
    cases hxs : argmaxFirst f xs with
    | none => rw [hxs] at h; simp at h
    | some y => rw [hxs] at h; simp only at h; split_ifs at h

theorem argminFirst_none {f : α → ℚ} : ∀ {l : List α}, argminFirst f l = none → l = [] := by
  intro l
  cases l with
  | nil => intro _; rfl
  | cons x xs =>
    intro h
    rw [argminFirst_cons] at h
    cases hxs : argminFirst f xs with
    | none => rw [hxs] at h; simp at h
    | some y => rw [hxs] at h; simp only at h; split_ifs at h

/-! ## Budget-fitting lemmas -/

theorem origCost_cheapened (s : Selection) : origCost (cheapened s) = cheapCost s := rfl

theorem totalCheap_sortAsc (f : Selection → ℚ) (l : List Selection) :
    totalCheap (sortAsc f l) = totalCheap l :=
  List.Perm.sum_eq ((sortAsc_perm f l).map cheapCost)

theorem totalCheap_sortDesc (f : Selection → ℚ) (l : List Selection) :
    totalCheap (sortDesc f l) = totalCheap l :=
  List.Perm.sum_eq ((sortDesc_perm f l).map cheapCost)

/-- The upgrade walk never lets the tracked running total pass the budget,
so the cost of its output is bounded by the cheap total plus the slack the
caller started with. -/
theorem upgradeLoop_cost_le (b : ℚ) :
    ∀ (l : List Selection) (t : ℚ), t ≤ b →
      totalCost (upgradeLoop b t l) ≤ totalCheap l + (b - t) := by
  intro l
  induction l with
  | nil =>
    intro t ht
    simp only [upgradeLoop, totalCost, totalCheap, List.map_nil, List.sum_nil]
    linarith
  | cons s rest ih =>
    intro t ht
    unfold upgradeLoop
    by_cases h : t + extraCost s ≤ b
    · simp only [h, if_true]
      have hrec := ih (t + extraCost s) h
      simp only [totalCost, totalCheap, List.map_cons, List.sum_cons] at hrec ⊢
      have he : origCost s = cheapCost s + extraCost s := by
        unfold extraCost
        ring
      have hrec' : (List.map origCost (upgradeLoop b (t + extraCost s) rest)).sum ≤
          (List.map cheapCost rest).sum + (b - (t + extraCost s)) := hrec
      linarith
    · simp only [h, if_false]
      have hrec := ih t ht
      simp only [totalCost, totalCheap, List.map_cons, List.sum_cons,
        origCost_cheapened] at hrec ⊢
      linarith

/-- Greedy inclusion keeps the running total within budget. -/
theorem greedyInclude_cost_le (b : ℚ) :
    ∀ (l : List Selection) (acc : ℚ), acc ≤ b →
      acc + totalCheap (greedyInclude b acc l).1 ≤ b := by
  intro l
  induction l with
  | nil =>
    intro acc h
    simp only [greedyInclude, totalCheap, List.map_nil, List.sum_nil]
    linarith
  | cons s rest ih =>
    intro acc h
    unfold greedyInclude
    by_cases hc : acc + cheapCost s ≤ b
    · simp only [hc, if_true]
      have hrec := ih (acc + cheapCost s) hc
      simp only [totalCheap, List.map_cons, List.sum_cons] at hrec ⊢
      linarith
    · simp only [hc, if_false]
      exact ih acc h

/-- Master bound: with a non-negative finite budget, the selections kept by
`_fit_to_budget` never cost more than the budget. -/
theorem fit_to_budget_cost_le (sels : List Selection) (b : ℚ) (hb : 0 ≤ b) :
    totalCost (fit_to_budget sels (some b)).1 ≤ b := by
  unfold fit_to_budget
  by_cases h1 : totalCost sels ≤ b
  · simp only [h1, if_true]
  · by_cases h2 : totalCheap sels ≤ b
    · simp only [h1, h2, if_true, if_false]
      have := upgradeLoop_cost_le b (sortAsc extraCost sels) (totalCheap sels) h2
      rw [totalCheap_sortAsc] at this
      linarith
    · simp only [h1, h2, if_false]
      have hg := greedyInclude_cost_le b (sortDesc efficiency sels) 0 hb
      have := upgradeLoop_cost_le b
        (sortAsc extraCost (greedyInclude b 0 (sortDesc efficiency sels)).1)
        (totalCheap (greedyInclude b 0 (sortDesc efficiency sels)).1) (by linarith)
      rw [totalCheap_sortAsc] at this
      linarith

/-! ## Plumbing from `optimize` down to the budget-fitting step -/

theorem optimize_total_cost (ctx : ScorerCtx) (sl : ShoppingList) (catalog : List Product) :
    (optimize ctx sl catalog).total_cost =
      totalCost (fit_to_budget (phase2Selections ctx sl catalog) sl.budget).1 := rfl

theorem find_candidate_products_sub {item : ShoppingListItem} {catalog : List Product}
    {q : Product} (h : q ∈ find_candidate_products item catalog) : q ∈ catalog := by
  unfold find_candidate_products at h
  split_ifs at h <;> exact (List.mem_filter.mp h).1

theorem select_best_product_nil (ctx : ScorerCtx) (item : ShoppingListItem)
    (fo : String) : select_best_product ctx item [] fo = none := by
  unfold select_best_product
  split_ifs <;> rfl

theorem select_best_product_mem {ctx : ScorerCtx} {item : ShoppingListItem}
    {cands : List Product} {fo : String} {c : Product}
    (h : select_best_product ctx item cands fo = some c) : c ∈ cands := by
  unfold select_best_product at h
  split_ifs at h
  · exact argminFirst_mem h
  · exact argmaxFirst_mem h
  · exact argmaxFirst_mem h
  · exact argmaxFirst_mem h

/-- Every phase-2 selection has a non-empty candidate list drawn from the
catalog, and its chosen product is one of the candidates. -/
theorem phase2Selections_shape {ctx : ScorerCtx} {sl : ShoppingList}
    {catalog : List Product} {s : Selection}
    (h : s ∈ phase2Selections ctx sl catalog) :
    s.candidates ≠ [] ∧ (∀ q ∈ s.candidates, q ∈ catalog) ∧ s.chosen ∈ s.candidates := by
  unfold phase2Selections at h
  obtain ⟨item, _, hf⟩ := List.mem_filterMap.mp h
  cases hsel : select_best_product ctx item (find_candidate_products item catalog)
      sl.optimize_for with
  | none => rw [hsel] at hf; cases hf
  | some c =>
    rw [hsel] at hf
    simp only [Option.map_some', Option.some.injEq] at hf
    subst hf
    refine ⟨?_, fun q hq => find_candidate_products_sub hq, select_best_product_mem hsel⟩
    intro hnil
    dsimp only at hnil
    rw [hnil] at hsel
    rw [select_best_product_nil] at hsel
    cases hsel

/-- The cheapest candidate of a phase-2 selection is one of its candidates. -/
theorem cheapest_mem {s : Selection} (h : s.candidates ≠ []) :
    s.cheapest ∈ s.candidates := by
  unfold Selection.cheapest
  cases hc : argminFirst (fun p => p.price) s.candidates with
  | none => exact absurd (argminFirst_none hc) h
  | some c =>
    simp only [Option.getD_some]
    exact argminFirst_mem hc

/-- C1: for every optimization request with a finite budget and at least
one affordable item (and a catalog of non-negative prices), the result
returned by `optimize` satisfies `total_cost ≤ budget`: the three-step
budget-fitting procedure never exceeds the budget. -/
theorem C1_total_cost_le_budget (ctx : ScorerCtx) (sl : ShoppingList)
    (catalog : List Product) (b : ℚ)
    (hbudget : sl.budget = some b)
    (hprices : ∀ p ∈ catalog, 0 ≤ p.price)
    (haff : ∃ s ∈ phase2Selections ctx sl catalog, cheapCost s ≤ b) :
    (optimize ctx sl catalog).total_cost ≤ b := by
  obtain ⟨s, hs, hsb⟩ := haff
  obtain ⟨hnil, hsub, _⟩ := phase2Selections_shape hs
  have hcheap : 0 ≤ cheapCost s := by
    unfold cheapCost
    have hp : 0 ≤ s.cheapest.price := hprices _ (hsub _ (cheapest_mem hnil))
    have hq : (0 : ℚ) ≤ (s.item.quantity : ℚ) := by positivity
    exact mul_nonneg hq hp
  have hb : 0 ≤ b := le_trans hcheap hsb
  rw [optimize_total_cost, hbudget]
  exact fit_to_budget_cost_le _ b hb

/-! ## Step 3c: analysis of the greedy exclusion -/

theorem greedyInclude_cons (b acc : ℚ) (x : Selection) (rest : List Selection) :
    greedyInclude b acc (x :: rest) =
      if acc + cheapCost x ≤ b then
        (x :: (greedyInclude b (acc + cheapCost x) rest).1,
          (greedyInclude b (acc + cheapCost x) rest).2)
      else
        ((greedyInclude b acc rest).1, x :: (greedyInclude b acc rest).2) := rfl

/-- An item lands in the excluded list of the greedy walk exactly because
it did not fit when its turn came: the cheap cost of the items included
before it, plus its own, exceeds the budget. -/
theorem greedyInclude_excluded_over_budget (b : ℚ) :
    ∀ (l : List Selection) (acc : ℚ) (s : Selection),
      s ∈ (greedyInclude b acc l).2 →
      ∃ pre suf, l = pre ++ s :: suf ∧
        b < acc + totalCheap (greedyInclude b acc pre).1 + cheapCost s := by
  intro l
  induction l with
  | nil =>
    intro acc s h
    simp [greedyInclude] at h
  | cons x rest ih =>
    intro acc s h
    rw [greedyInclude_cons] at h
    by_cases hc : acc + cheapCost x ≤ b
    · rw [if_pos hc] at h
      dsimp only at h
      obtain ⟨pre, suf, hdec, hgt⟩ := ih (acc + cheapCost x) s h
      refine ⟨x :: pre, suf, by simp [hdec], ?_⟩
      rw [greedyInclude_cons, if_pos hc]
      dsimp only
      simp only [totalCheap, List.map_cons, List.sum_cons] at hgt ⊢
      linarith
    · rw [if_neg hc] at h
      dsimp only at h
      rcases List.mem_cons.mp h with rfl | h'
      · refine ⟨[], rest, rfl, ?_⟩
        simp only [greedyInclude, totalCheap, List.map_nil, List.sum_nil]
        linarith [not_le.mp hc]
      · obtain ⟨pre, suf, hdec, hgt⟩ := ih acc s h'
        refine ⟨x :: pre, suf, by simp [hdec], ?_⟩
        rw [greedyInclude_cons, if_neg hc]
        dsimp only
        exact hgt

/-- C6 (amended): an item excluded by budget-fitting step 3c is one that
did not fit at its turn in the descending-efficiency order: the cheap cost
of the higher-ranked items included before it plus its own cheap cost
exceeds the budget.  Excluded items need not have the lowest efficiency:
a cheaper item of strictly lower efficiency later in the order can still
be included (see the counterexample). -/
theorem C6_amended_excluded_did_not_fit (sels : List Selection) (b : ℚ)
    (s : Selection) (hs : s ∈ (fit_to_budget sels (some b)).2) :
    ∃ pre suf, sortDesc efficiency sels = pre ++ s :: suf ∧
      b < totalCheap (greedyInclude b 0 pre).1 + cheapCost s := by
  unfold fit_to_budget at hs
  dsimp only at hs
  by_cases h1 : totalCost sels ≤ b
  · rw [if_pos h1] at hs
    simp at hs
  · rw [if_neg h1] at hs
    by_cases h2 : totalCheap sels ≤ b
    · rw [if_pos h2] at hs
      simp at hs
    · rw [if_neg h2] at hs
      dsimp only at hs
      obtain ⟨pre, suf, hdec, hgt⟩ :=
        greedyInclude_excluded_over_budget b (sortDesc efficiency sels) 0 s hs
      exact ⟨pre, suf, hdec, by linarith⟩

/-! ## Concrete fixtures used by witnesses and counterexamples -/

/-- A neutral catalog product all concrete test products are variations
of. -/
def blandProduct : Product :=
  { name := "Leche Entera", brand := "marca", category := "dairy", price := 1490,
    discount := 0, unit_price := 1, store := "s1", carbon_footprint := 3,
    water_usage := 0, packaging_recyclable := false, fair_trade := false,
    local_product := false, social_certifications := false, nutri_score := "C",
    no_additives := false, high_fiber := false, high_protein := false, labels := [] }

/-- Scorer environment used by the concrete fixtures. -/
def wCtx : ScorerCtx := { category_average := 1500, unit_price_threshold := 10 }

/-- Concrete oil product, price 12. -/
def cxProdA : Product := { blandProduct with name := "Aceite Oliva", price := 12 }

/-- Concrete rice product, price 3. -/
def cxProdB : Product := { blandProduct with name := "Arroz", price := 3 }

/-- Priority-1 pantry item costing 12 at its cheapest: efficiency 5/12. -/
def cxItemA : ShoppingListItem :=
  { product_name := "aceite", category := "pantry", quantity := 1, priority := 1,
    preferences := [] }

def cxItemB : ShoppingListItem :=
  { product_name := "arroz", category := "pantry", quantity := 1, priority := 5,
    preferences := [] }

def cxSelA : Selection :=
  { item := cxItemA, candidates := [cxProdA], chosen := cxProdA }

/-- Priority-5 pantry item costing 3 at its cheapest: efficiency 1/3. -/
def cxSelB : Selection :=
  { item := cxItemB, candidates := [cxProdB], chosen := cxProdB }

/-- C6 counterexample: with budget 10 and the two items above (total cheap
cost 15, so step 3c is reached), the greedy walk excludes the item of
efficiency 5/12 because it does not fit, yet includes the strictly less
efficient item of efficiency 1/3 — refuting the claim that excluded items
are exactly the lowest-efficiency ones and that no excluded item has
strictly higher efficiency than an included one. -/
theorem C6_counterexample :
    (fit_to_budget [cxSelA, cxSelB] (some 10)).2 = [cxSelA] ∧
    (fit_to_budget [cxSelA, cxSelB] (some 10)).1 = [cxSelB] ∧
    efficiency cxSelB < efficiency cxSelA := by
  norm_num [fit_to_budget, totalCost, totalCheap, origCost, cheapCost, Selection.cheapest,
    argminFirst, efficiency, sortDesc, insertDesc, sortAsc, insertAsc, greedyInclude,
    upgradeLoop, extraCost, cheapened, cxSelA, cxSelB, cxItemA, cxItemB, cxProdA, cxProdB, blandProduct]

/-- Witness for the amended C6 at the concrete step-3c run: the excluded
item `cxSelA` indeed failed to fit at its turn. -/
theorem C6_amended_witness :
    ∃ pre suf, sortDesc efficiency [cxSelA, cxSelB] = pre ++ cxSelA :: suf ∧
      10 < totalCheap (greedyInclude 10 0 pre).1 + cheapCost cxSelA :=
  C6_amended_excluded_did_not_fit [cxSelA, cxSelB] 10 cxSelA (by
    norm_num [fit_to_budget, totalCost, totalCheap, origCost, cheapCost, Selection.cheapest,
      argminFirst, efficiency, sortDesc, insertDesc, sortAsc, insertAsc, greedyInclude,
      upgradeLoop, extraCost, cheapened, cxSelA, cxSelB, cxItemA, cxItemB, cxProdA, cxProdB, blandProduct])

/-! ## C5: behaviour of an unrecognized optimization focus -/

/-- Scorer environment with no economic bonuses (average and threshold 0). -/
def ctx5 : ScorerCtx := { category_average := 0, unit_price_threshold := 0 }

/-- Item used in the focus fixtures. -/
def item5 : ShoppingListItem :=
  { product_name := "queso", category := "dairy", quantity := 1, priority := 1,
    preferences := [] }

/-- Cheapest cheese, neutral scores. -/
def q1 : Product := { blandProduct with name := "Queso Barato", price := 100 }

/-- Mid-priced cheese with top sustainability and health attributes. -/
def q2 : Product :=
  { blandProduct with
    name := "Queso Premium"
    price := 110
    carbon_footprint := 1/2
    local_product := true
    packaging_recyclable := true
    fair_trade := true
    social_certifications := true
    nutri_score := "A"
    no_additives := true
    high_fiber := true
    labels := ["organic"] }

/-- Expensive cheese, neutral scores. -/
def q3 : Product := { blandProduct with name := "Queso Caro", price := 200 }

/-- C5 counterexample: `optimize_for = "quality"` is not one of the four
recognized focus values, yet selection does not fail: it falls through to
the balanced branch and returns a normal winner (`q2`), which differs from
the price-focus winner (`q1`) — so an unrecognized focus silently defaults
to balanced instead of failing fast with an error. -/
theorem C5_counterexample :
    select_best_product ctx5 item5 [q1, q2, q3] "quality"
        = select_best_product ctx5 item5 [q1, q2, q3] "balanced"
    ∧ select_best_product ctx5 item5 [q1, q2, q3] "quality" = some q2
    ∧ select_best_product ctx5 item5 [q1, q2, q3] "price" = some q1 := by
  refine ⟨rfl, ?_, ?_⟩
  · rw [show select_best_product ctx5 item5 [q1, q2, q3] "quality"
        = argmaxFirst (balanced_score ctx5 item5 [q1, q2, q3]) [q1, q2, q3] from by
      unfold select_best_product
      rw [if_neg (by decide : ¬("quality" : String) = "price"),
        if_neg (by decide : ¬("quality" : String) = "sustainability"),
        if_neg (by decide : ¬("quality" : String) = "health")]]
    norm_num [balanced_score, price_score, preference_match, calculate_score,
      calculate_economic_score, calculate_environmental_score, calculate_social_score,
      calculate_health_score, nutriBonus, argmaxFirst, argminFirst,
      q1, q2, q3, ctx5, item5, blandProduct]
    norm_num [show ¬("C":String) = "A" from by decide, show ¬("C":String) = "B" from by decide,
      show ¬("C":String) = "D" from by decide]
  · norm_num [select_best_product, argminFirst, q1, q2, q3, blandProduct]

/-- C5 (amended): an unrecognized `optimize_for` value is not rejected and
raises nothing: `_select_best_product` lands in its final `else` branch,
behaves exactly as the `balanced` focus, and with a non-empty candidate
list still returns a normal selection. -/
theorem C5_amended_unknown_focus_defaults_to_balanced (ctx : ScorerCtx)
    (item : ShoppingListItem) (cands : List Product) (focus : String)
    (h1 : focus ≠ "price") (h2 : focus ≠ "sustainability") (h3 : focus ≠ "health") :
    select_best_product ctx item cands focus
        = select_best_product ctx item cands "balanced"
    ∧ (cands ≠ [] → (select_best_product ctx item cands focus).isSome) := by
  constructor
  · unfold select_best_product
    rw [if_neg h1, if_neg h2, if_neg h3,
      if_neg (by decide : ¬("balanced" : String) = "price"),
      if_neg (by decide : ¬("balanced" : String) = "sustainability"),
      if_neg (by decide : ¬("balanced" : String) = "health")]
  · intro hne
    unfold select_best_product
    rw [if_neg h1, if_neg h2, if_neg h3]
    obtain ⟨c, l₁, l₂, hc, -, -, -⟩ :=
      argmaxFirst_first_max (balanced_score ctx item cands) cands hne
    rw [hc]
    rfl

/-- Witness for the amended C5 at the concrete fixtures and the
unrecognized focus string `quality`. -/
theorem C5_amended_witness :
    select_best_product ctx5 item5 [q1, q2, q3] "quality"
        = select_best_product ctx5 item5 [q1, q2, q3] "balanced"
    ∧ ([q1, q2, q3] ≠ [] →
        (select_best_product ctx5 item5 [q1, q2, q3] "quality").isSome) :=
  C5_amended_unknown_focus_defaults_to_balanced ctx5 item5 [q1, q2, q3] "quality"
    (by decide) (by decide) (by decide)

/-! ## C1 witness fixtures -/

/-- One-item request: `leche`, quantity 1, priority 1. -/
def wItem : ShoppingListItem :=
  { product_name := "leche", category := "dairy", quantity := 1, priority := 1,
    preferences := [] }

/-- Shopping list with finite budget 2000 and `price` focus. -/
def wList : ShoppingList := { items := [wItem], budget := some 2000, optimize_for := "price" }

/-- Catalog containing the single affordable milk product. -/
def wCatalog : List Product := [blandProduct]

/-- Witness for C1: the concrete one-item request (budget 2000, one
affordable candidate at 1490) yields a result within budget. -/
theorem C1_witness : (optimize wCtx wList wCatalog).total_cost ≤ 2000 :=
  C1_total_cost_le_budget wCtx wList wCatalog 2000 rfl
    (by
      intro p hp
      simp only [wCatalog, List.mem_singleton] at hp
      simp [hp, blandProduct])
    ⟨⟨wItem, [blandProduct], blandProduct⟩,
      by
        rw [show phase2Selections wCtx wList wCatalog
            = [⟨wItem, [blandProduct], blandProduct⟩] from rfl]
        simp,
      by norm_num [cheapCost, Selection.cheapest, argminFirst, wItem, blandProduct]⟩

/-! ## C7: best-variant selection picks the first optimum per focus -/

/-- Predicate: `c` is the first element of `l` attaining the maximal key `f`. -/
def IsFirstMax (f : α → ℚ) (l : List α) (c : α) : Prop :=
  ∃ l₁ l₂, l = l₁ ++ c :: l₂ ∧ (∀ d ∈ l, f d ≤ f c) ∧ ∀ d ∈ l₁, f d < f c

/-- Predicate: `c` is the first element of `l` attaining the minimal key `f`. -/
def IsFirstMin (f : α → ℚ) (l : List α) (c : α) : Prop :=
  ∃ l₁ l₂, l = l₁ ++ c :: l₂ ∧ (∀ d ∈ l, f c ≤ f d) ∧ ∀ d ∈ l₁, f c < f d

/-- C7: for a non-empty candidate list, phase-2 selection returns, for
each focus, the first candidate in catalog order attaining the optimum of
that focus's key: minimum price for `price`, maximum overall score for
`sustainability`, maximum health score for `health`, and maximum balanced
blend for `balanced` — so ties are broken deterministically by the first
candidate encountered. -/
theorem C7_select_best_product_first_optimum (ctx : ScorerCtx)
    (item : ShoppingListItem) (cands : List Product) (hne : cands ≠ []) :
    (∃ c, select_best_product ctx item cands "price" = some c
        ∧ IsFirstMin (fun p => p.price) cands c)
    ∧ (∃ c, select_best_product ctx item cands "sustainability" = some c
        ∧ IsFirstMax (fun p => (calculate_score ctx p).overall_score) cands c)
    ∧ (∃ c, select_best_product ctx item cands "health" = some c
        ∧ IsFirstMax (fun p => (calculate_score ctx p).health_score) cands c)
    ∧ (∃ c, select_best_product ctx item cands "balanced" = some c
        ∧ IsFirstMax (balanced_score ctx item cands) cands c) := by
  refine ⟨?_, ?_, ?_, ?_⟩
  · obtain ⟨c, l₁, l₂, hc, hdec, hle, hstrict⟩ :=
      argminFirst_first_min (fun p : Product => p.price) cands hne
    refine ⟨c, ?_, l₁, l₂, hdec, hle, hstrict⟩
    unfold select_best_product
    rw [if_pos rfl]
    exact hc
  · obtain ⟨c, l₁, l₂, hc, hdec, hle, hstrict⟩ :=
      argmaxFirst_first_max (fun p : Product => (calculate_score ctx p).overall_score) cands hne
    refine ⟨c, ?_, l₁, l₂, hdec, hle, hstrict⟩
    unfold select_best_product
    rw [if_neg (by decide : ¬("sustainability" : String) = "price"), if_pos rfl]
    exact hc
  · obtain ⟨c, l₁, l₂, hc, hdec, hle, hstrict⟩ :=
      argmaxFirst_first_max (fun p : Product => (calculate_score ctx p).health_score) cands hne
    refine ⟨c, ?_, l₁, l₂, hdec, hle, hstrict⟩
    unfold select_best_product
    rw [if_neg (by decide : ¬("health" : String) = "price"),
      if_neg (by decide : ¬("health" : String) = "sustainability"), if_pos rfl]
    exact hc
  · obtain ⟨c, l₁, l₂, hc, hdec, hle, hstrict⟩ :=
      argmaxFirst_first_max (balanced_score ctx item cands) cands hne
    refine ⟨c, ?_, l₁, l₂, hdec, hle, hstrict⟩
    unfold select_best_product
    rw [if_neg (by decide : ¬("balanced" : String) = "price"),
      if_neg (by decide : ¬("balanced" : String) = "sustainability"),
      if_neg (by decide : ¬("balanced" : String) = "health")]
    exact hc

/-- Witness for C7 at the concrete three-cheese candidate list. -/
theorem C7_witness :
    (∃ c, select_best_product ctx5 item5 [q1, q2, q3] "price" = some c
        ∧ IsFirstMin (fun p => p.price) [q1, q2, q3] c)
    ∧ (∃ c, select_best_product ctx5 item5 [q1, q2, q3] "sustainability" = some c
        ∧ IsFirstMax (fun p => (calculate_score ctx5 p).overall_score) [q1, q2, q3] c)
    ∧ (∃ c, select_best_product ctx5 item5 [q1, q2, q3] "health" = some c
        ∧ IsFirstMax (fun p => (calculate_score ctx5 p).health_score) [q1, q2, q3] c)
    ∧ (∃ c, select_best_product ctx5 item5 [q1, q2, q3] "balanced" = some c
        ∧ IsFirstMax (balanced_score ctx5 item5 [q1, q2, q3]) [q1, q2, q3] c) :=
  C7_select_best_product_first_optimum ctx5 item5 [q1, q2, q3] (by simp)

/-! ## Substitution engine: mandatory filters -/

/-- One step of the mandatory-filter chain: survivors still belong to the
input pool, and when the restriction was supplied they carry its label. -/
theorem mand_step {cond : Prop} [Decidable cond] {lab : String}
    {l : List Product} {q : Product}
    (h : q ∈ (if cond then l.filter (fun p => decide (lab ∈ p.labels)) else l)) :
    q ∈ l ∧ (cond → lab ∈ q.labels) := by
  split_ifs at h with hc
  · have hm := List.mem_filter.mp h
    refine ⟨hm.1, fun _ => ?_⟩
    simpa using hm.2
  · exact ⟨h, fun hcc => absurd hcc hc⟩

/-- A survivor of `apply_mandatory_filters` is a pool member carrying the
label of every supplied hard restriction. -/
theorem mem_apply_mandatory_filters {q : Product} {cands : List Product}
    {prefs : List String} (h : q ∈ apply_mandatory_filters cands prefs) :
    q ∈ cands ∧ ("gluten_free" ∈ prefs → "gluten_free" ∈ q.labels)
      ∧ ("vegan" ∈ prefs → "vegan" ∈ q.labels)
      ∧ ("lactose_free" ∈ prefs → "lactose_free" ∈ q.labels) := by
  unfold apply_mandatory_filters at h
  dsimp only at h
  obtain ⟨h', h3⟩ := mand_step h
  obtain ⟨h'', h2⟩ := mand_step h'
  obtain ⟨h1q, h1⟩ := mand_step h''
  exact ⟨h1q, h1, h2, h3⟩

/-- Every suggestion's product survived the mandatory filters. -/
theorem find_substitutes_product_filtered {original : Product} {pool : List Product}
    {focus : String} {prefs : List String} {sugg : SubstitutionSuggestion}
    (hs : sugg ∈ find_substitutes original pool focus prefs) :
    sugg.product ∈ apply_mandatory_filters pool prefs := by
  unfold find_substitutes at hs
  dsimp only at hs
  have h1 := List.take_subset _ _ hs
  rw [mem_sortDesc] at h1
  have h2 := List.mem_of_mem_filter h1
  obtain ⟨p, hp, hep⟩ := List.mem_map.mp h2
  rw [← hep]
  exact hp

/-- C4: for every original product, candidate pool and supplied hard
dietary preference (`gluten_free`, `vegan` or `lactose_free`),
`find_substitutes` never returns a suggestion whose product lacks the
corresponding label: such candidates are excluded before scoring,
regardless of similarity rank. -/
theorem C4_hard_preferences_respected (original : Product) (pool : List Product)
    (focus : String) (prefs : List String) (pref : String)
    (sugg : SubstitutionSuggestion)
    (hhard : pref = "gluten_free" ∨ pref = "vegan" ∨ pref = "lactose_free")
    (hin : pref ∈ prefs)
    (hs : sugg ∈ find_substitutes original pool focus prefs) :
    pref ∈ sugg.product.labels := by
  obtain ⟨-, hg, hv, hl⟩ :=
    mem_apply_mandatory_filters (find_substitutes_product_filtered hs)
  rcases hhard with rfl | rfl | rfl
  · exact hg hin
  · exact hv hin
  · exact hl hin

/-- C8: `find_substitutes` on an empty pool returns no suggestions, and a
pool fully eliminated by the mandatory filters likewise yields the empty
suggestion list (and, being a total function, never raises). -/
theorem C8_empty_or_fully_filtered_pool (original : Product) (pool : List Product)
    (focus : String) (prefs : List String) :
    find_substitutes original [] focus prefs = []
    ∧ (apply_mandatory_filters pool prefs = [] →
        find_substitutes original pool focus prefs = []) := by
  constructor
  · unfold find_substitutes apply_mandatory_filters
    dsimp only
    split_ifs <;> rfl
  · intro h
    unfold find_substitutes
    dsimp only
    rw [h]
    rfl

/-- C10: only `gluten_free`, `vegan` and `lactose_free` act as mandatory
filters: any preference set containing none of them leaves the pool
unchanged, and the soft-preference pass merely permutes the surviving
candidates (it never excludes). -/
theorem C10_only_three_hard_filters (cands : List Product) (prefs : List String)
    (h1 : "gluten_free" ∉ prefs) (h2 : "vegan" ∉ prefs) (h3 : "lactose_free" ∉ prefs) :
    apply_mandatory_filters cands prefs = cands
    ∧ List.Perm (apply_soft_preferences cands prefs) cands := by
  constructor
  · unfold apply_mandatory_filters
    dsimp only
    rw [if_neg h1, if_neg h2, if_neg h3]
  · unfold apply_soft_preferences
    exact sortDesc_perm _ _

/-! ## Substitution witnesses -/

/-- Original (non-vegan) cheese. -/
def origQ : Product := { blandProduct with name := "Queso", price := 100 }

/-- Vegan-labelled cheese alternative. -/
def veganQ : Product := { blandProduct with name := "Queso", price := 100, labels := ["vegan"] }

/-- Non-vegan cheese alternative. -/
def regQ : Product := { blandProduct with name := "Queso", price := 100 }

/-- Witness for C4: requesting `vegan` over a mixed pool, the returned
suggestion carries the `vegan` label. -/
theorem C4_witness : "vegan" ∈ (SubstitutionSuggestion.mk veganQ 90).product.labels :=
  C4_hard_preferences_respected origQ [veganQ, regQ] "price" ["vegan"] "vegan"
    ⟨veganQ, 90⟩ (Or.inr (Or.inl rfl)) (by simp)
    (by
      rw [show find_substitutes origQ [veganQ, regQ] "price" ["vegan"]
          = [⟨veganQ, 90⟩] from by
        simp +decide [find_substitutes, apply_mandatory_filters, calculate_similarity,
          fuzzy_ratio, lowerChars, lowChar, sortDesc, insertDesc, MAX_SUBSTITUTES,
          MIN_SIMILARITY_THRESHOLD, origQ, veganQ, regQ, blandProduct]
        norm_num [sortDesc, insertDesc, show ("Queso".length = 5) from rfl, veganQ,
          blandProduct]]
      simp)

/-- Witness for C8: a pool whose only candidate violates the supplied
`vegan` restriction yields the empty suggestion list. -/
theorem C8_witness : find_substitutes origQ [regQ] "price" ["vegan"] = [] :=
  (C8_empty_or_fully_filtered_pool origQ [regQ] "price" ["vegan"]).2
    (by simp +decide [apply_mandatory_filters, regQ, blandProduct])

/-- Witness for C10: the soft preference `organic` neither filters the
pool nor drops anyone from the soft re-ranking. -/
theorem C10_witness :
    apply_mandatory_filters [veganQ, regQ] ["organic"] = [veganQ, regQ]
    ∧ List.Perm (apply_soft_preferences [veganQ, regQ] ["organic"]) [veganQ, regQ] :=
  C10_only_three_hard_filters [veganQ, regQ] ["organic"]
    (by decide) (by decide) (by decide)

end LiquiVerde
